import Mathlib

/-!
Shallow embedding of the hall availability and booking-window logic of
`src/app/components/Calendar.tsx`, which contains the two booking surfaces:
the single-hall `Calendar` component (36-month look-ahead) and the
multi-hall `HallList` component (2-month look-ahead).

Modelling conventions:
* A JS `Date` produced by `new Date(year, month, day)` is a `CivilDate`
  (integer year, zero-based month, one-based day of month).
* The ambient clock `new Date()` is threaded explicitly as an `Instant`:
  the civil date of "today" plus the time elapsed since local midnight
  (`tod`, e.g. in milliseconds; `tod = 0` is exactly midnight).
* JS timestamp comparison of a date at local midnight against the current
  instant is `dateGeInstant`; for valid dates (day in 1..31, month in
  0..11) the lexicographic rank used here agrees with chronological order.
* The runtime timezone is taken to be UTC, so `date.toISOString()`
  names the same civil day as the local date being iterated.
* React state updates (`setAvailabilityData`, `setCurrentMonth`,
  `setCurrentYear`) become explicit state passing: the fetch handlers map
  an old state and a fetch outcome to a new state, the month-navigation
  handlers map a `(month, year)` cursor to a new cursor, and a day-button
  click is a read of the availability snapshot that never writes it.
-/

/-- A civil calendar date: integer year, zero-based month (as in JS `Date`),
one-based day of month. -/
structure CivilDate where
  year : Int
  month : Nat
  day : Nat
deriving DecidableEq, Repr

/-- The current wall-clock instant `new Date()`: the civil date of today and
the time of day since local midnight (`tod = 0` means exactly midnight). -/
structure Instant where
  date : CivilDate
  tod : Nat
deriving DecidableEq, Repr

/-- Linear rank of a civil date; for valid dates (day < 32) it is monotone
in chronological order, so it models JS timestamp comparison of midnights. -/
def CivilDate.rank (d : CivilDate) : Int :=
  (d.year * 12 + d.month) * 32 + d.day

/-- Linear month index `year * 12 + month` of a date. -/
def CivilDate.mIdx (d : CivilDate) : Int :=
  d.year * 12 + d.month

/-- Gregorian leap-year test, as used by the JS `Date` calendar. -/
def isLeapYear (y : Int) : Bool :=
  y % 4 == 0 && (y % 100 != 0 || y % 400 == 0)

/-- Number of days in zero-based month `m` of year `y`: the value of
`new Date(year, month + 1, 0).getDate()`, the loop bound of
`getDaysInMonth`. -/
def daysInMonthCount (y : Int) (m : Nat) : Nat :=
  if m == 1 then (if isLeapYear y then 29 else 28)
  else if m == 3 || m == 5 || m == 8 || m == 10 then 30
  else 31

/-- The guard `date >= new Date()` of `getDaysInMonth`: the midnight of
civil date `d` is at or after the instant `now`.  A midnight is at or after
`now` exactly when `d` is chronologically after today, or `d` is today and
the instant is exactly midnight. -/
def dateGeInstant (d : CivilDate) (now : Instant) : Bool :=
  now.date.rank < d.rank || (now.date.rank == d.rank && now.tod == 0)

/-- Normalized availability record held in component state
(interface `AvailabilityData`). -/
structure AvailabilityData where
  date : String
  reason : String
  isBooked : Bool
deriving DecidableEq, Repr

/-- One raw item of the `GET /api/halls/availability` response body
(`APIResponse.data[i]`); `reason = ""` models an absent or empty reason,
and the nested `hall` object is flattened to its `hall_id`. -/
structure RawItem where
  date : String
  reason : String
  is_booked : Bool
  hall_id : Nat
deriving DecidableEq, Repr

/-- The `APIResponse` envelope (the unused `message` field is omitted). -/
structure APIResponse where
  statusCode : Nat
  data : List RawItem
deriving DecidableEq, Repr

/-- Outcome of one `fetch` of the availability endpoint: either a decoded
response (any status code) or a transport error (the `catch` branch). -/
inductive FetchOutcome where
  | ok (resp : APIResponse)
  | transportError
deriving DecidableEq, Repr

/-- The three-way date status of the data model of the specification. -/
inductive DateStatus where
  | available
  | onHold
  | booked
deriving DecidableEq, Repr

/-- Spec-side normalization of a stored record into `DateStatus`, following
the wording of the spec (a record with the booked flag true is `Booked`; a record
with a `reason` present and the booked flag false is `OnHold`; otherwise
`Available`).  Named `spec_` because it is the reading of the specification, to
be compared with the click guards the code actually uses. -/
def spec_recordStatus (reason : String) (isBooked : Bool) : DateStatus :=
  if isBooked then .booked
  else if reason ≠ "" then .onHold
  else .available

namespace Calendar

/-- `item.date.split("T")[0]`. -/
def isoDatePart (s : String) : String :=
  (s.splitOn "T").headD ""

/-- The per-item normalization inside `fetchAvailability`:
`{ date: item.date.split("T")[0], reason: item.reason || "Available",
isBooked: item.is_booked }`. -/
def normalizeItem (item : RawItem) : AvailabilityData :=
  { date := isoDatePart item.date
    reason := if item.reason == "" then "Available" else item.reason
    isBooked := item.is_booked }

/-- `fetchAvailability` as a state transformer: on a 200 response the state
becomes the normalized records of this hall; on a non-200 response or a
transport error the handler only logs and the state is left unchanged. -/
def fetchAvailability (hallId : Nat) (st : List AvailabilityData)
    (o : FetchOutcome) : List AvailabilityData :=
  match o with
  | .ok result =>
      if result.statusCode == 200 then
        (result.data.filter (fun item => item.hall_id == hallId)).map normalizeItem
      else st
  | .transportError => st

/-- `getDaysInMonth(month, year)`: the days of the month whose midnight is
at or after `new Date()` (threaded as `now`), in order. -/
def getDaysInMonth (now : Instant) (month : Nat) (year : Int) : List CivilDate :=
  ((List.range (daysInMonthCount year month)).map
      (fun i => CivilDate.mk year month (i + 1))).filter
    (fun d => dateGeInstant d now)

/-- `handlePrevMonth` as a pure cursor map: a no-op at the month/year of `new Date()`, otherwise one month back with a year decrement at January. -/
def handlePrevMonth (today : CivilDate) (c : Nat × Int) : Nat × Int :=
  if c.1 = today.month ∧ c.2 = today.year then c
  else if c.1 = 0 then (11, c.2 - 1)
  else (c.1 - 1, c.2)

/-- `handleNextMonth` as a pure cursor map, with the hardcoded
36-month horizon of the source: a no-op at `(maxMonth % 12, maxYear)`, otherwise one
month forward with a year increment at December. -/
def handleNextMonth (today : CivilDate) (c : Nat × Int) : Nat × Int :=
  let maxMonth := today.month + 36
  let maxYear := today.year + (maxMonth / 12 : Nat)
  if c.1 = maxMonth % 12 ∧ c.2 = maxYear then c
  else if c.1 = 11 then (0, c.2 + 1)
  else (c.1 + 1, c.2)

/-- The same next-month handler with the hardcoded horizon abstracted into
a parameter, for comparing the policies of the two surfaces. -/
def handleNextMonthWith (horizon : Nat) (today : CivilDate) (c : Nat × Int) :
    Nat × Int :=
  let maxMonth := today.month + horizon
  let maxYear := today.year + (maxMonth / 12 : Nat)
  if c.1 = maxMonth % 12 ∧ c.2 = maxYear then c
  else if c.1 = 11 then (0, c.2 + 1)
  else (c.1 + 1, c.2)

/-- The `onClick` guard of the day button:
`!availability?.isBooked && availability?.reason !== "On hold"`, where
`availability` is `availabilityData.find((data) => data.date === day)`.
With no record the optional chaining yields `undefined`, so the guard
passes. -/
def clickAllowed (st : List AvailabilityData) (day : String) : Bool :=
  match st.find? (fun a => a.date == day) with
  | none => true
  | some a => !a.isBooked && a.reason != "On hold"

/-- The `disabled` attribute of the day button:
`availability?.isBooked || availability?.reason === "On hold"`. -/
def dayDisabled (st : List AvailabilityData) (day : String) : Bool :=
  match st.find? (fun a => a.date == day) with
  | none => false
  | some a => a.isBooked || a.reason == "On hold"

/-- The reason label rendered under a day button, present exactly when a
record for the day exists: `{availability && ...availability.reason}`. -/
def dayLabel (st : List AvailabilityData) (day : String) : Option String :=
  (st.find? (fun a => a.date == day)).map (fun a => a.reason)

/-- One date selection on the Calendar surface: `onDateSelect(hallId, day)`
fires exactly when the click guard passes, and the handler performs no
write — the availability snapshot is returned unchanged. -/
def selectDate (hallId : Nat) (st : List AvailabilityData) (day : String) :
    Option (Nat × String) × List AvailabilityData :=
  (if clickAllowed st day then some (hallId, day) else none, st)

end Calendar

namespace HallList

/-- `fetchAvailability` of the multi-hall surface as a state transformer on
the grouped projection `hallId -> records`: on a 200 response the grouping
`groupedData[item.hall.hall_id].push(...)` is rebuilt from scratch (a hall
absent from the response maps to the empty list, matching the `undefined`
lookup `availabilityData[hall.hall_id]`); on a non-200 response or a
transport error the handler only logs and the state is left unchanged. -/
def fetchAvailability (st : Nat → List AvailabilityData)
    (o : FetchOutcome) : Nat → List AvailabilityData :=
  match o with
  | .ok result =>
      if result.statusCode == 200 then
        fun hallId =>
          (result.data.filter (fun item => item.hall_id == hallId)).map
            Calendar.normalizeItem
      else st
  | .transportError => st

/-- `getDaysInMonth(month, year)` of the multi-hall surface (textually the
same computation as the single-hall one). -/
def getDaysInMonth (now : Instant) (month : Nat) (year : Int) : List CivilDate :=
  ((List.range (daysInMonthCount year month)).map
      (fun i => CivilDate.mk year month (i + 1))).filter
    (fun d => dateGeInstant d now)

/-- `handlePrevMonth` of the multi-hall surface. -/
def handlePrevMonth (today : CivilDate) (c : Nat × Int) : Nat × Int :=
  if c.1 = today.month ∧ c.2 = today.year then c
  else if c.1 = 0 then (11, c.2 - 1)
  else (c.1 - 1, c.2)

/-- `handleNextMonth` of the multi-hall surface, with the hardcoded
2-month horizon of the source. -/
def handleNextMonth (today : CivilDate) (c : Nat × Int) : Nat × Int :=
  let maxMonth := today.month + 2
  let maxYear := today.year + (maxMonth / 12 : Nat)
  if c.1 = maxMonth % 12 ∧ c.2 = maxYear then c
  else if c.1 = 11 then (0, c.2 + 1)
  else (c.1 + 1, c.2)

/-- The multi-hall next-month handler with the horizon abstracted. -/
def handleNextMonthWith (horizon : Nat) (today : CivilDate) (c : Nat × Int) :
    Nat × Int :=
  let maxMonth := today.month + horizon
  let maxYear := today.year + (maxMonth / 12 : Nat)
  if c.1 = maxMonth % 12 ∧ c.2 = maxYear then c
  else if c.1 = 11 then (0, c.2 + 1)
  else (c.1 + 1, c.2)

/-- The `onClick` guard of the multi-hall day button:
`!availability?.isBooked` — note there is no "On hold" check here, unlike
the single-hall surface. -/
def clickAllowed (st : List AvailabilityData) (day : String) : Bool :=
  match st.find? (fun a => a.date == day) with
  | none => true
  | some a => !a.isBooked

/-- The `disabled` attribute of the multi-hall day button:
`availability?.isBooked`. -/
def dayDisabled (st : List AvailabilityData) (day : String) : Bool :=
  match st.find? (fun a => a.date == day) with
  | none => false
  | some a => a.isBooked

/-- One date selection on the multi-hall surface, against the grouped
projection: `onDateSelect(hall.hall_id, day)` fires exactly when the click
guard passes on the records of that hall, and no state is written. -/
def selectDate (hallId : Nat) (st : Nat → List AvailabilityData)
    (day : String) :
    Option (Nat × String) × (Nat → List AvailabilityData) :=
  (if clickAllowed (st hallId) day then some (hallId, day) else none, st)

end HallList

/-! ### Cursor arithmetic helpers -/

/-- Linear month index of a `(month, year)` cursor. -/
def cursorIdx (c : Nat × Int) : Int :=
  c.2 * 12 + c.1

/-- The cursor of a linear month index. -/
def cursorOfIdx (i : Int) : Nat × Int :=
  ((i % 12).toNat, i / 12)

/-- The clamp target of the next-month handlers, computed from `today` and
the horizon exactly as in the source: `(maxMonth % 12, maxYear)`. -/
def maxCursor (horizon : Nat) (today : CivilDate) : Nat × Int :=
  ((today.month + horizon) % 12,
    today.year + ((today.month + horizon) / 12 : Nat))

lemma cursorIdx_ofIdx (i : Int) : cursorIdx (cursorOfIdx i) = i := by
  simp only [cursorIdx, cursorOfIdx]
  omega

lemma cursorOfIdx_month_lt (i : Int) : (cursorOfIdx i).1 < 12 := by
  simp only [cursorOfIdx]
  omega

lemma cursorOfIdx_idx (c : Nat × Int) (h : c.1 < 12) :
    cursorOfIdx (cursorIdx c) = c := by
  obtain ⟨m, y⟩ := c
  simp only [cursorOfIdx, cursorIdx, Prod.mk.injEq]
  simp only at h
  constructor <;> omega

lemma cursorIdx_maxCursor (horizon : Nat) (today : CivilDate) :
    cursorIdx (maxCursor horizon today) =
      cursorIdx (today.month, today.year) + horizon := by
  simp only [cursorIdx, maxCursor]
  have := Nat.div_add_mod (today.month + horizon) 12
  omega

lemma handlePrevMonth_fix (today : CivilDate) :
    Calendar.handlePrevMonth today (today.month, today.year) =
      (today.month, today.year) := by
  simp [Calendar.handlePrevMonth]

lemma handlePrevMonth_step (today : CivilDate) (c : Nat × Int)
    (hm : c.1 < 12) (hne : c ≠ (today.month, today.year)) :
    Calendar.handlePrevMonth today c = cursorOfIdx (cursorIdx c - 1) := by
  obtain ⟨m, y⟩ := c
  have hg : ¬(m = today.month ∧ y = today.year) := by
    intro ⟨h1, h2⟩
    exact hne (by rw [h1, h2])
  simp only at hm
  rw [Calendar.handlePrevMonth]
  simp only [if_neg hg]
  by_cases h0 : m = 0
  · rw [if_pos h0]
    simp only [h0, cursorOfIdx, cursorIdx, Prod.mk.injEq]
    constructor <;> omega
  · rw [if_neg h0]
    simp only [cursorOfIdx, cursorIdx, Prod.mk.injEq]
    constructor <;> omega

lemma handleNextMonthWith_fix (horizon : Nat) (today : CivilDate) :
    Calendar.handleNextMonthWith horizon today (maxCursor horizon today) =
      maxCursor horizon today := by
  simp [Calendar.handleNextMonthWith, maxCursor]

lemma handleNextMonthWith_step (horizon : Nat) (today : CivilDate)
    (c : Nat × Int) (hm : c.1 < 12) (hne : c ≠ maxCursor horizon today) :
    Calendar.handleNextMonthWith horizon today c =
      cursorOfIdx (cursorIdx c + 1) := by
  obtain ⟨m, y⟩ := c
  have hg : ¬(m = (today.month + horizon) % 12 ∧
      y = today.year + ((today.month + horizon) / 12 : Nat)) := by
    intro ⟨h1, h2⟩
    exact hne (by rw [maxCursor, h1, h2])
  simp only at hm
  rw [Calendar.handleNextMonthWith]
  simp only [if_neg hg]
  by_cases h11 : m = 11
  · rw [if_pos h11]
    simp only [h11, cursorOfIdx, cursorIdx, Prod.mk.injEq]
    constructor <;> omega
  · rw [if_neg h11]
    simp only [cursorOfIdx, cursorIdx, Prod.mk.injEq]
    constructor <;> omega

lemma handlePrevMonth_iterate_conv (today : CivilDate)
    (hT : today.month < 12) :
    ∀ (n : Nat) (c : Nat × Int), c.1 < 12 →
      cursorIdx c = cursorIdx (today.month, today.year) + n →
      (Calendar.handlePrevMonth today)^[n] c = (today.month, today.year) := by
  intro n
  induction n with
  | zero =>
      intro c hm hidx
      have : c = (today.month, today.year) := by
        have h1 := cursorOfIdx_idx c hm
        have h2 := cursorOfIdx_idx (today.month, today.year) (by simpa using hT)
        rw [← h1, ← h2, hidx]
        norm_num
      simpa using this
  | succ n ih =>
      intro c hm hidx
      have hne : c ≠ (today.month, today.year) := by
        intro h
        rw [h] at hidx
        omega
      rw [Function.iterate_succ_apply,
        handlePrevMonth_step today c hm hne]
      exact ih _ (cursorOfIdx_month_lt _) (by rw [cursorIdx_ofIdx]; omega)

lemma handleNextMonthWith_iterate_conv (horizon : Nat) (today : CivilDate) :
    ∀ (n : Nat) (c : Nat × Int), c.1 < 12 →
      cursorIdx c + n = cursorIdx (today.month, today.year) + horizon →
      (Calendar.handleNextMonthWith horizon today)^[n] c =
        maxCursor horizon today := by
  intro n
  induction n with
  | zero =>
      intro c hm hidx
      have : c = maxCursor horizon today := by
        have h1 := cursorOfIdx_idx c hm
        have h2 := cursorOfIdx_idx (maxCursor horizon today)
          (by simp only [maxCursor]; omega)
        rw [← h1, ← h2, cursorIdx_maxCursor]
        norm_num at hidx ⊢
        rw [hidx]
      simpa using this
  | succ n ih =>
      intro c hm hidx
      have hne : c ≠ maxCursor horizon today := by
        intro h
        rw [h, cursorIdx_maxCursor] at hidx
        omega
      rw [Function.iterate_succ_apply,
        handleNextMonthWith_step horizon today c hm hne]
      exact ih _ (cursorOfIdx_month_lt _) (by rw [cursorIdx_ofIdx]; omega)

/-! ### The offered date set of a booking surface -/

/-- The set of selectable dates a surface offers: the union, over the
cursor-reachable months (the iterates of the clamped next-month handler
starting from the month of `today`), of the per-month day lists. -/
def allowedDatesWith (horizon : Nat) (now : Instant) : List CivilDate :=
  ((List.range (horizon + 1)).map
      (fun k =>
        (Calendar.handleNextMonthWith horizon now.date)^[k]
          (now.date.month, now.date.year))).flatMap
    (fun c => Calendar.getDaysInMonth now c.1 c.2)

lemma mem_getDaysInMonth (now : Instant) (m : Nat) (y : Int) (d : CivilDate) :
    d ∈ Calendar.getDaysInMonth now m y ↔
      (d.year = y ∧ d.month = m ∧ 1 ≤ d.day ∧
        d.day ≤ daysInMonthCount y m ∧ dateGeInstant d now = true) := by
  simp only [Calendar.getDaysInMonth, List.mem_filter, List.mem_map,
    List.mem_range]
  constructor
  · rintro ⟨⟨i, hi, rfl⟩, hge⟩
    refine ⟨rfl, rfl, ?_, ?_, hge⟩
    · show 1 ≤ i + 1
      omega
    · show i + 1 ≤ daysInMonthCount y m
      omega
  · rintro ⟨hy, hm, h1, h2, hge⟩
    obtain ⟨Y, M, D⟩ := d
    subst hy
    subst hm
    dsimp only at h1 h2
    refine ⟨⟨D - 1, ?_, ?_⟩, hge⟩
    · show D - 1 < daysInMonthCount Y M
      omega
    · show CivilDate.mk Y M (D - 1 + 1) = CivilDate.mk Y M D
      congr 1
      omega

lemma cursorIdx_today (d : CivilDate) :
    cursorIdx (d.month, d.year) = d.mIdx :=
  rfl

lemma reachable_cursor (horizon : Nat) (today : CivilDate)
    (hT : today.month < 12) :
    ∀ k, k ≤ horizon →
      (Calendar.handleNextMonthWith horizon today)^[k]
          (today.month, today.year) =
        cursorOfIdx (cursorIdx (today.month, today.year) + k) := by
  intro k
  induction k with
  | zero =>
      intro _
      rw [Function.iterate_zero_apply]
      rw [show cursorIdx (today.month, today.year) + (0 : Nat) =
        cursorIdx (today.month, today.year) by omega]
      exact (cursorOfIdx_idx (today.month, today.year) (by simpa using hT)).symm
  | succ k ih =>
      intro hk
      rw [Function.iterate_succ_apply', ih (by omega)]
      have hne : cursorOfIdx (cursorIdx (today.month, today.year) + k) ≠
          maxCursor horizon today := by
        intro h
        have := congrArg cursorIdx h
        rw [cursorIdx_ofIdx, cursorIdx_maxCursor] at this
        omega
      rw [handleNextMonthWith_step horizon today _
        (cursorOfIdx_month_lt _) hne, cursorIdx_ofIdx]
      congr 1
      push_cast
      ring

/-! ### Claim theorems -/

/-- C3 (counterexample): with `today = 2025-01-15` at any time of day
strictly after midnight (here `tod = 1`) and a 2-month horizon, today
itself is NOT among the offered dates, contradicting the claim that the
offered set contains every date from today inclusive: the guard
`date >= new Date()` compares the midnight of each day against the current
instant, so the midnight of today has already passed. -/
theorem today_excluded_from_window :
    CivilDate.mk 2025 0 15 ∉
      allowedDatesWith 2 (Instant.mk (CivilDate.mk 2025 0 15) 1) := by
  decide

/-- C3 (amended): the offered set (union of the per-month day lists over
the cursor-reachable months) consists of exactly the valid calendar dates
of the months from the month of today through `horizon` months later whose
midnight is at or after the current instant.  Hence no date strictly
before today is ever offered and the maximum offered date is the last day
of the horizon month, but today itself is offered only when the current
time is exactly midnight (`tod = 0`) — at any later time of day today is
excluded, contrary to the claim as stated. -/
theorem allowedDates_window_amended :
    ∀ (now : Instant) (horizon : Nat) (d : CivilDate),
      now.date.month < 12 →
      (d ∈ allowedDatesWith horizon now ↔
        (dateGeInstant d now = true ∧ d.month < 12 ∧
          now.date.mIdx ≤ d.mIdx ∧ d.mIdx ≤ now.date.mIdx + horizon ∧
          1 ≤ d.day ∧ d.day ≤ daysInMonthCount d.year d.month)) := by
  intro now horizon d hT
  rw [allowedDatesWith]
  simp only [List.mem_flatMap, List.mem_map, List.mem_range]
  constructor
  · rintro ⟨c, ⟨k, hk, rfl⟩, hd⟩
    rw [reachable_cursor horizon now.date hT k (by omega),
      mem_getDaysInMonth] at hd
    obtain ⟨hy, hm, h1, h2, hge⟩ := hd
    have hidx : d.mIdx = cursorIdx (now.date.month, now.date.year) + k := by
      simp only [CivilDate.mIdx, hy, hm, cursorOfIdx, cursorIdx]
      omega
    rw [cursorIdx_today] at hidx
    refine ⟨hge, ?_, by omega, by omega, h1, ?_⟩
    · rw [hm]
      exact cursorOfIdx_month_lt _
    · rw [← hy, ← hm] at h2
      exact h2
  · rintro ⟨hge, hm12, hlo, hhi, h1, h2⟩
    refine ⟨(d.month, d.year),
      ⟨(d.mIdx - now.date.mIdx).toNat, by omega, ?_⟩, ?_⟩
    · rw [reachable_cursor horizon now.date hT _ (by omega), cursorIdx_today]
      rw [show now.date.mIdx + ((d.mIdx - now.date.mIdx).toNat : Int) =
        cursorIdx (d.month, d.year) by rw [cursorIdx_today]; omega]
      exact cursorOfIdx_idx (d.month, d.year) (by simpa using hm12)
    · rw [mem_getDaysInMonth]
      exact ⟨rfl, rfl, h1, h2, hge⟩

/-- Witness for the amended C3 theorem at a concrete input:
`today = 2025-01-15` just after midnight, horizon 2; the next day
2025-01-16 is offered. -/
theorem allowedDates_window_amended_witness :
    CivilDate.mk 2025 0 16 ∈
      allowedDatesWith 2 (Instant.mk (CivilDate.mk 2025 0 15) 1) := by
  have h := (allowedDates_window_amended
    (Instant.mk (CivilDate.mk 2025 0 15) 1) 2 (CivilDate.mk 2025 0 16)
    (by norm_num)).mpr
  exact h ⟨by decide, by norm_num, by decide, by decide, by norm_num, by decide⟩

/-- C4 (counterexample): the navigation guards test equality with the
boundary month, not order.  With today advanced to February 2025
(`⟨2025, 1, 1⟩`) and the cursor still at January 2025 — a cursor state
that was reachable while today was in January — repeated `prevMonth`
calls move strictly further into the past instead of clamping: after 24
calls the cursor is at January 2023 and it is still changing, so repeated
`prevMonth` calls do not converge to the month containing today. -/
theorem prevMonth_diverges_below_today :
    (Calendar.handlePrevMonth (CivilDate.mk 2025 1 1))^[24] (0, 2025) =
        (0, 2023) ∧
      Calendar.handlePrevMonth (CivilDate.mk 2025 1 1) (0, 2023) =
        (11, 2022) := by
  constructor <;> decide

/-- C4 (amended): on both surfaces the boundaries are recomputed from the
current `today` on every call, and navigation saturates from any cursor
inside the window — repeated `prevMonth` calls from a cursor at or after
the month of today converge to the month of today and then stop changing,
and repeated `nextMonth` calls from a cursor at or before the horizon
month converge to the horizon month and then stop changing; but for a
cursor strictly before the month of today (possible when today has
advanced across a month rollover since the cursor was created) every
`prevMonth` call moves the cursor one further month into the past, with
no clamping. -/
theorem cursor_saturation_amended :
    ∀ (today : CivilDate) (horizon : Nat) (c : Nat × Int),
      today.month < 12 → c.1 < 12 →
      (cursorIdx (today.month, today.year) ≤ cursorIdx c →
        (Calendar.handlePrevMonth today)^[
            (cursorIdx c - cursorIdx (today.month, today.year)).toNat] c =
          (today.month, today.year) ∧
        (HallList.handlePrevMonth today)^[
            (cursorIdx c - cursorIdx (today.month, today.year)).toNat] c =
          (today.month, today.year)) ∧
      Calendar.handlePrevMonth today (today.month, today.year) =
        (today.month, today.year) ∧
      HallList.handlePrevMonth today (today.month, today.year) =
        (today.month, today.year) ∧
      (cursorIdx c < cursorIdx (today.month, today.year) →
        cursorIdx (Calendar.handlePrevMonth today c) = cursorIdx c - 1 ∧
        cursorIdx (HallList.handlePrevMonth today c) = cursorIdx c - 1) ∧
      (cursorIdx c ≤ cursorIdx (today.month, today.year) + horizon →
        (Calendar.handleNextMonthWith horizon today)^[
            (cursorIdx (today.month, today.year) + horizon -
              cursorIdx c).toNat] c =
          maxCursor horizon today ∧
        (HallList.handleNextMonthWith horizon today)^[
            (cursorIdx (today.month, today.year) + horizon -
              cursorIdx c).toNat] c =
          maxCursor horizon today) ∧
      Calendar.handleNextMonthWith horizon today (maxCursor horizon today) =
        maxCursor horizon today ∧
      HallList.handleNextMonthWith horizon today (maxCursor horizon today) =
        maxCursor horizon today := by
  intro today horizon c hT hm
  have hprev : HallList.handlePrevMonth = Calendar.handlePrevMonth := rfl
  have hnext : HallList.handleNextMonthWith = Calendar.handleNextMonthWith :=
    rfl
  refine ⟨?_, ?_, ?_, ?_, ?_, ?_, ?_⟩
  · intro hle
    have h := handlePrevMonth_iterate_conv today hT
      (cursorIdx c - cursorIdx (today.month, today.year)).toNat c hm
      (by omega)
    exact ⟨h, by rw [hprev]; exact h⟩
  · exact handlePrevMonth_fix today
  · rw [hprev]
    exact handlePrevMonth_fix today
  · intro hlt
    have hne : c ≠ (today.month, today.year) := by
      intro h
      rw [h] at hlt
      omega
    have h : cursorIdx (Calendar.handlePrevMonth today c) =
        cursorIdx c - 1 := by
      rw [handlePrevMonth_step today c hm hne, cursorIdx_ofIdx]
    exact ⟨h, by rw [hprev]; exact h⟩
  · intro hle
    have h := handleNextMonthWith_iterate_conv horizon today
      (cursorIdx (today.month, today.year) + horizon - cursorIdx c).toNat c
      hm (by omega)
    exact ⟨h, by rw [hnext]; exact h⟩
  · exact handleNextMonthWith_fix horizon today
  · rw [hnext]
    exact handleNextMonthWith_fix horizon today

/-- Witness for the amended C4 theorem at a concrete input: today
`2025-01-15`, horizon 2, cursor March 2025; two `prevMonth` calls land on
the month of today, and `prevMonth` is then a no-op there. -/
theorem cursor_saturation_amended_witness :
    (Calendar.handlePrevMonth (CivilDate.mk 2025 0 15))^[2] (2, 2025) =
      (0, 2025) ∧
    Calendar.handlePrevMonth (CivilDate.mk 2025 0 15) (0, 2025) = (0, 2025) := by
  have h := cursor_saturation_amended (CivilDate.mk 2025 0 15) 2 (2, 2025)
    (by norm_num) (by norm_num)
  exact ⟨(h.1 (by decide)).1, h.2.1⟩

lemma prevMonth_step_shape (today : CivilDate) (c : Nat × Int)
    (hm : c.1 < 12) :
    (Calendar.handlePrevMonth today c).1 < 12 ∧
      (Calendar.handlePrevMonth today c = c ∨
        (cursorIdx (Calendar.handlePrevMonth today c) = cursorIdx c - 1 ∧
          ((Calendar.handlePrevMonth today c).2 = c.2 - 1 ↔ c.1 = 0))) := by
  obtain ⟨m, y⟩ := c
  simp only at hm
  rw [Calendar.handlePrevMonth]
  by_cases hg : m = today.month ∧ y = today.year
  · rw [if_pos hg]
    exact ⟨hm, Or.inl rfl⟩
  · rw [if_neg hg]
    by_cases h0 : m = 0
    · rw [if_pos h0]
      refine ⟨by norm_num, Or.inr ⟨?_, ?_⟩⟩
      · simp only [cursorIdx]
        omega
      · simp only [h0]
    · rw [if_neg h0]
      refine ⟨by omega, Or.inr ⟨?_, ?_⟩⟩
      · simp only [cursorIdx]
        omega
      · simp only
        constructor
        · intro h
          omega
        · intro h
          exact absurd h h0

lemma nextMonthWith_step_shape (horizon : Nat) (today : CivilDate)
    (c : Nat × Int) (hm : c.1 < 12) :
    (Calendar.handleNextMonthWith horizon today c).1 < 12 ∧
      (Calendar.handleNextMonthWith horizon today c = c ∨
        (cursorIdx (Calendar.handleNextMonthWith horizon today c) =
            cursorIdx c + 1 ∧
          ((Calendar.handleNextMonthWith horizon today c).2 = c.2 + 1 ↔
            c.1 = 11))) := by
  obtain ⟨m, y⟩ := c
  simp only at hm
  rw [Calendar.handleNextMonthWith]
  by_cases hg : m = (today.month + horizon) % 12 ∧
      y = today.year + ((today.month + horizon) / 12 : Nat)
  · rw [if_pos hg]
    exact ⟨hm, Or.inl rfl⟩
  · rw [if_neg hg]
    by_cases h11 : m = 11
    · rw [if_pos h11]
      refine ⟨by norm_num, Or.inr ⟨?_, ?_⟩⟩
      · simp only [cursorIdx]
        omega
      · simp only [h11]
    · rw [if_neg h11]
      refine ⟨by omega, Or.inr ⟨?_, ?_⟩⟩
      · simp only [cursorIdx]
        omega
      · simp only
        constructor
        · intro h
          omega
        · intro h
          exact absurd h h11

/-- C9 (confirmed): invariant of the calendar cursor on both surfaces.
Starting from a cursor whose month component is in `[0, 11]`, each
`prevMonth` or `nextMonth` call keeps the month component in `[0, 11]`
and either leaves the `(month, year)` cursor unchanged or moves its
linear month index by exactly one, with the year decremented exactly at
the January wrap (`month = 0`) and incremented exactly at the December
wrap (`month = 11`). -/
theorem cursor_step_invariant :
    ∀ (today : CivilDate) (c : Nat × Int), c.1 < 12 →
      ((Calendar.handlePrevMonth today c).1 < 12 ∧
        (Calendar.handlePrevMonth today c = c ∨
          (cursorIdx (Calendar.handlePrevMonth today c) = cursorIdx c - 1 ∧
            ((Calendar.handlePrevMonth today c).2 = c.2 - 1 ↔ c.1 = 0)))) ∧
      ((Calendar.handleNextMonth today c).1 < 12 ∧
        (Calendar.handleNextMonth today c = c ∨
          (cursorIdx (Calendar.handleNextMonth today c) = cursorIdx c + 1 ∧
            ((Calendar.handleNextMonth today c).2 = c.2 + 1 ↔ c.1 = 11)))) ∧
      ((HallList.handlePrevMonth today c).1 < 12 ∧
        (HallList.handlePrevMonth today c = c ∨
          (cursorIdx (HallList.handlePrevMonth today c) = cursorIdx c - 1 ∧
            ((HallList.handlePrevMonth today c).2 = c.2 - 1 ↔ c.1 = 0)))) ∧
      ((HallList.handleNextMonth today c).1 < 12 ∧
        (HallList.handleNextMonth today c = c ∨
          (cursorIdx (HallList.handleNextMonth today c) = cursorIdx c + 1 ∧
            ((HallList.handleNextMonth today c).2 = c.2 + 1 ↔ c.1 = 11)))) := by
  intro today c hm
  have h1 : Calendar.handleNextMonth today c =
      Calendar.handleNextMonthWith 36 today c := rfl
  have h2 : HallList.handlePrevMonth today c =
      Calendar.handlePrevMonth today c := rfl
  have h3 : HallList.handleNextMonth today c =
      Calendar.handleNextMonthWith 2 today c := rfl
  refine ⟨prevMonth_step_shape today c hm, ?_, ?_, ?_⟩
  · rw [h1]
    exact nextMonthWith_step_shape 36 today c hm
  · rw [h2]
    exact prevMonth_step_shape today c hm
  · rw [h3]
    exact nextMonthWith_step_shape 2 today c hm

/-- Witness for the C9 theorem at a concrete input. -/
theorem cursor_step_invariant_witness :
    (Calendar.handlePrevMonth (CivilDate.mk 2025 0 15) (0, 2025)).1 < 12 :=
  (cursor_step_invariant (CivilDate.mk 2025 0 15) (0, 2025)
    (by norm_num)).1.1

/-- C1 (counterexample): no serialization of two confirmations on the same
`(hallId, date)` key exists in this code.  Starting from the empty
availability snapshot (date `2025-06-10` of hall 3 is `Available`), a first
selection fires `onDateSelect(3, "2025-06-10")` and, because a selection
never writes the snapshot, a second selection of the same key against the
resulting state fires `onDateSelect(3, "2025-06-10")` as well: both
"confirmations" succeed and neither observes a conflict, contradicting
the claim that exactly one of two such calls succeeds. -/
theorem dateSelection_race_both_fire :
    (Calendar.selectDate 3 [] "2025-06-10").1 = some (3, "2025-06-10") ∧
      (Calendar.selectDate 3 (Calendar.selectDate 3 [] "2025-06-10").2
          "2025-06-10").1 = some (3, "2025-06-10") :=
  ⟨rfl, rfl⟩

/-- C1 (amended): the booking surfaces place no per-key serialization
point at all — a date selection is gated only by a client-side check of
the cached availability snapshot and performs no write, so its outcome is
unchanged under repetition: on both surfaces selection leaves the snapshot
unchanged, and a second selection of the same key against the resulting
state has exactly the same outcome as the first.  In particular two
concurrent confirmations of the same `(hallId, date)` both succeed
whenever the snapshot shows the date selectable; there is no atomic
check-then-write unit in this code. -/
theorem dateSelection_no_serialization :
    ∀ (hallId : Nat) (st : List AvailabilityData)
      (gst : Nat → List AvailabilityData) (day : String),
      (Calendar.selectDate hallId st day).2 = st ∧
        (Calendar.selectDate hallId
            (Calendar.selectDate hallId st day).2 day).1 =
          (Calendar.selectDate hallId st day).1 ∧
        (HallList.selectDate hallId gst day).2 = gst ∧
        (HallList.selectDate hallId
            (HallList.selectDate hallId gst day).2 day).1 =
          (HallList.selectDate hallId gst day).1 :=
  fun _ _ _ _ => ⟨rfl, rfl, rfl, rfl⟩

/-- C2 (counterexample): a record with `is_booked = false` and the reason
`"On hold"` present denotes `OnHold` in the normalization of the spec, yet
on the multi-hall `HallList` surface its day button is enabled and a click
invokes `onDateSelect`: the `HallList` click guard checks only
`!availability?.isBooked` and has no on-hold check at all. -/
theorem onHold_selectable_on_hallList :
    spec_recordStatus "On hold" false = DateStatus.onHold ∧
      HallList.clickAllowed [AvailabilityData.mk "2025-06-10" "On hold" false]
          "2025-06-10" = true ∧
      HallList.dayDisabled [AvailabilityData.mk "2025-06-10" "On hold" false]
          "2025-06-10" = false ∧
      (HallList.selectDate 3
          (fun _ => [AvailabilityData.mk "2025-06-10" "On hold" false])
          "2025-06-10").1 = some (3, "2025-06-10") := by
  refine ⟨by decide, by decide, by decide, rfl⟩

/-- C2 (amended): a `Booked` record (`is_booked = true`) is never
selectable, on both surfaces; but on-hold rejection exists only on the
single-hall `Calendar` surface and only for the exact reason string
`"On hold"` — the `HallList` surface invokes `onDateSelect` for every
record that is not booked, including on-hold ones. -/
theorem selection_blocked_amended :
    ∀ (st gst : List AvailabilityData) (day1 day2 : String)
      (a b : AvailabilityData),
      (st.find? (fun x => x.date == day1) = some a →
        (a.isBooked = true → Calendar.clickAllowed st day1 = false ∧
          Calendar.dayDisabled st day1 = true) ∧
        (a.reason = "On hold" → Calendar.clickAllowed st day1 = false ∧
          Calendar.dayDisabled st day1 = true)) ∧
      (gst.find? (fun x => x.date == day2) = some b →
        (b.isBooked = true → HallList.clickAllowed gst day2 = false ∧
          HallList.dayDisabled gst day2 = true) ∧
        (b.isBooked = false → HallList.clickAllowed gst day2 = true ∧
          HallList.dayDisabled gst day2 = false)) := by
  intro st gst day1 day2 a b
  constructor
  · intro hf
    constructor
    · intro hb
      constructor <;>
        simp [Calendar.clickAllowed, Calendar.dayDisabled, hf, hb]
    · intro hr
      constructor <;>
        simp [Calendar.clickAllowed, Calendar.dayDisabled, hf, hr]
  · intro hf
    constructor <;> intro hb <;> constructor <;>
      simp [HallList.clickAllowed, HallList.dayDisabled, hf, hb]

/-- Witness for the amended C2 theorem at concrete inputs: a booked
wedding date is blocked on the Calendar surface, and a non-booked on-hold
date is selectable on the HallList surface. -/
theorem selection_blocked_amended_witness :
    (Calendar.clickAllowed [AvailabilityData.mk "2025-06-10" "Wedding" true]
        "2025-06-10" = false ∧
      Calendar.dayDisabled [AvailabilityData.mk "2025-06-10" "Wedding" true]
        "2025-06-10" = true) ∧
      (HallList.clickAllowed
          [AvailabilityData.mk "2025-06-11" "On hold" false]
          "2025-06-11" = true ∧
        HallList.dayDisabled
          [AvailabilityData.mk "2025-06-11" "On hold" false]
          "2025-06-11" = false) := by
  have h := selection_blocked_amended
    [AvailabilityData.mk "2025-06-10" "Wedding" true]
    [AvailabilityData.mk "2025-06-11" "On hold" false]
    "2025-06-10" "2025-06-11"
    (AvailabilityData.mk "2025-06-10" "Wedding" true)
    (AvailabilityData.mk "2025-06-11" "On hold" false)
  exact ⟨(h.1 (by decide)).1 rfl, (h.2 (by decide)).2 rfl⟩

/-- C5 (confirmed): a failed refresh never feeds the `Available` default.
On both surfaces, a transport error (the `catch` branch) and a non-200
response both leave the availability state exactly as it was, so after a
failed refresh a date reads as `Available` only by being absent from the
unchanged previous snapshot — never on the strength of the failure
itself. -/
theorem fetch_failure_preserves_state :
    ∀ (hallId : Nat) (st : List AvailabilityData)
      (gst : Nat → List AvailabilityData) (o : FetchOutcome),
      (o = FetchOutcome.transportError →
        Calendar.fetchAvailability hallId st o = st ∧
          HallList.fetchAvailability gst o = gst) ∧
      (∀ resp, o = FetchOutcome.ok resp → resp.statusCode ≠ 200 →
        Calendar.fetchAvailability hallId st o = st ∧
          HallList.fetchAvailability gst o = gst) := by
  intro hallId st gst o
  constructor
  · rintro rfl
    exact ⟨rfl, rfl⟩
  · rintro resp rfl hcode
    constructor <;>
      simp [Calendar.fetchAvailability, HallList.fetchAvailability, hcode]

/-- Witness for the C5 theorem at concrete inputs: a transport error and a
500 response both leave a one-record snapshot untouched. -/
theorem fetch_failure_preserves_state_witness :
    Calendar.fetchAvailability 3 [AvailabilityData.mk "2025-06-10" "Wedding" true]
        FetchOutcome.transportError =
      [AvailabilityData.mk "2025-06-10" "Wedding" true] ∧
    Calendar.fetchAvailability 3 [AvailabilityData.mk "2025-06-10" "Wedding" true]
        (FetchOutcome.ok (APIResponse.mk 500
          [RawItem.mk "2025-06-11T00:00:00.000Z" "" false 3])) =
      [AvailabilityData.mk "2025-06-10" "Wedding" true] := by
  refine ⟨?_, ?_⟩
  · exact ((fetch_failure_preserves_state 3
      [AvailabilityData.mk "2025-06-10" "Wedding" true]
      (fun _ => []) FetchOutcome.transportError).1 rfl).1
  · exact ((fetch_failure_preserves_state 3
      [AvailabilityData.mk "2025-06-10" "Wedding" true]
      (fun _ => []) (FetchOutcome.ok (APIResponse.mk 500
        [RawItem.mk "2025-06-11T00:00:00.000Z" "" false 3]))).2 _ rfl
      (by norm_num)).1

/-- C6 (confirmed): a `(hallId, date)` key with no matching record in the
current snapshot is `Available` by default on both surfaces: the day
button is enabled (`disabled` is false) and a click invokes
`onDateSelect` — the open-world default, not an error. -/
theorem missing_record_selectable :
    ∀ (st gst : List AvailabilityData) (day : String),
      st.find? (fun a => a.date == day) = none →
      gst.find? (fun a => a.date == day) = none →
      Calendar.clickAllowed st day = true ∧
        Calendar.dayDisabled st day = false ∧
        HallList.clickAllowed gst day = true ∧
        HallList.dayDisabled gst day = false := by
  intro st gst day h1 h2
  refine ⟨?_, ?_, ?_, ?_⟩ <;>
    simp [Calendar.clickAllowed, Calendar.dayDisabled,
      HallList.clickAllowed, HallList.dayDisabled, h1, h2]

/-- Witness for the C6 theorem at a concrete input: the empty snapshot has
no record for `2025-06-10`, and the date is selectable on both
surfaces. -/
theorem missing_record_selectable_witness :
    Calendar.clickAllowed [] "2025-06-10" = true ∧
      Calendar.dayDisabled [] "2025-06-10" = false ∧
      HallList.clickAllowed [] "2025-06-10" = true ∧
      HallList.dayDisabled [] "2025-06-10" = false :=
  missing_record_selectable [] [] "2025-06-10" rfl rfl

/-- C7 (confirmed): the two booking surfaces implement one and the same
window policy, differing only in the hardcoded horizon value (36 months on
the single-hall `Calendar` surface, 2 months on the multi-hall `HallList`
surface): the day-list computations of the two surfaces agree on all
inputs, the prev-month clampings agree on all inputs, the
horizon-abstracted next-month clampings agree on all inputs and all
horizons, and each hardcoded next-month handler is its horizon-abstracted
policy instantiated at the hardcoded value of that surface. -/
theorem surfaces_share_policy :
    (∀ (now : Instant) (m : Nat) (y : Int),
        Calendar.getDaysInMonth now m y = HallList.getDaysInMonth now m y) ∧
      (∀ (today : CivilDate) (c : Nat × Int),
        Calendar.handlePrevMonth today c = HallList.handlePrevMonth today c) ∧
      (∀ (horizon : Nat) (today : CivilDate) (c : Nat × Int),
        Calendar.handleNextMonthWith horizon today c =
          HallList.handleNextMonthWith horizon today c) ∧
      (∀ (today : CivilDate) (c : Nat × Int),
        Calendar.handleNextMonth today c =
          Calendar.handleNextMonthWith 36 today c) ∧
      (∀ (today : CivilDate) (c : Nat × Int),
        HallList.handleNextMonth today c =
          HallList.handleNextMonthWith 2 today c) :=
  ⟨fun _ _ _ => rfl, fun _ _ => rfl, fun _ _ _ => rfl,
    fun _ _ => rfl, fun _ _ => rfl⟩

/-- C8 (counterexample): two records identical except for their reason
text, both with `is_booked = false` and a reason present — so both
denoting `OnHold` in the normalization of the spec — have different
selectability on the `Calendar` surface: a `"Wedding"` record is
selectable while an `"On hold"` record is not.  The reason text therefore
does influence control flow beyond the three-way state: the click guard
dispatches on the exact string `"On hold"`, not on the `DateStatus`. -/
theorem reason_text_changes_selectability :
    spec_recordStatus "Wedding" false = spec_recordStatus "On hold" false ∧
      Calendar.clickAllowed [AvailabilityData.mk "2025-06-10" "Wedding" false]
          "2025-06-10" = true ∧
      Calendar.clickAllowed [AvailabilityData.mk "2025-06-10" "On hold" false]
          "2025-06-10" = false := by
  refine ⟨by decide, by decide, by decide⟩

/-- C8 (amended): the reason text influences selectability exactly through
the predicate "equals the string `On hold`" (and only on the `Calendar`
surface): for any two found records with the same booked flag that agree
on whether their reason is exactly `"On hold"`, the click guard and the
disabled attribute coincide on both surfaces; any further content of the
reason text affects display only. -/
theorem reason_influence_amended :
    ∀ (st1 st2 : List AvailabilityData) (day1 day2 : String)
      (a1 a2 : AvailabilityData),
      st1.find? (fun x => x.date == day1) = some a1 →
      st2.find? (fun x => x.date == day2) = some a2 →
      a1.isBooked = a2.isBooked →
      ((a1.reason = "On hold") ↔ (a2.reason = "On hold")) →
      Calendar.clickAllowed st1 day1 = Calendar.clickAllowed st2 day2 ∧
        Calendar.dayDisabled st1 day1 = Calendar.dayDisabled st2 day2 ∧
        HallList.clickAllowed st1 day1 = HallList.clickAllowed st2 day2 ∧
        HallList.dayDisabled st1 day1 = HallList.dayDisabled st2 day2 := by
  intro st1 st2 day1 day2 a1 a2 h1 h2 hb hr
  have hbe : (a1.reason == "On hold") = (a2.reason == "On hold") := by
    by_cases hc : a1.reason = "On hold"
    · simp [hc, hr.mp hc]
    · have hc2 : ¬a2.reason = "On hold" := fun h => hc (hr.mpr h)
      simp [hc, hc2]
  refine ⟨?_, ?_, ?_, ?_⟩ <;>
    simp only [Calendar.clickAllowed, Calendar.dayDisabled,
      HallList.clickAllowed, HallList.dayDisabled, h1, h2, hb, bne, hbe]

/-- Witness for the amended C8 theorem at concrete inputs: a non-booked
`"Wedding"` record and a non-booked `"Reception"` record are equally
selectable. -/
theorem reason_influence_amended_witness :
    Calendar.clickAllowed [AvailabilityData.mk "2025-06-10" "Wedding" false]
        "2025-06-10" =
      Calendar.clickAllowed
        [AvailabilityData.mk "2025-06-11" "Reception" false] "2025-06-11" :=
  (reason_influence_amended
    [AvailabilityData.mk "2025-06-10" "Wedding" false]
    [AvailabilityData.mk "2025-06-11" "Reception" false]
    "2025-06-10" "2025-06-11"
    (AvailabilityData.mk "2025-06-10" "Wedding" false)
    (AvailabilityData.mk "2025-06-11" "Reception" false)
    (by decide) (by decide) rfl (by decide)).1

/-- C10 (confirmed): the fetch normalization maps an empty (or absent)
reason to the literal string `"Available"` regardless of the booked flag
(`item.reason || "Available"`), and a fetched record with
`is_booked = true` and empty reason is rendered with the label
`"Available"` while its day button stays disabled and unselectable. -/
theorem empty_reason_normalized_available :
    ∀ (item : RawItem) (st : List AvailabilityData) (day : String)
      (a : AvailabilityData),
      (item.reason = "" →
        Calendar.normalizeItem item =
          AvailabilityData.mk (Calendar.isoDatePart item.date) "Available"
            item.is_booked) ∧
      (st.find? (fun x => x.date == day) = some a → a.isBooked = true →
        Calendar.clickAllowed st day = false ∧
          Calendar.dayDisabled st day = true ∧
          Calendar.dayLabel st day = some a.reason) := by
  intro item st day a
  constructor
  · intro h
    simp [Calendar.normalizeItem, h]
  · intro hf hb
    refine ⟨?_, ?_, ?_⟩ <;>
      simp [Calendar.clickAllowed, Calendar.dayDisabled, Calendar.dayLabel,
        hf, hb]

/-- Witness for the C10 theorem at a concrete input: a raw item with
`is_booked = true` and empty reason normalizes to the reason label
`"Available"`, and the resulting record renders disabled with that
label. -/
theorem empty_reason_normalized_available_witness :
    Calendar.normalizeItem (RawItem.mk "2025-06-10T00:00:00.000Z" "" true 3) =
        AvailabilityData.mk
          (Calendar.isoDatePart "2025-06-10T00:00:00.000Z") "Available"
          true ∧
      Calendar.clickAllowed [AvailabilityData.mk "2025-06-10" "Available" true]
          "2025-06-10" = false ∧
      Calendar.dayDisabled [AvailabilityData.mk "2025-06-10" "Available" true]
          "2025-06-10" = true ∧
      Calendar.dayLabel [AvailabilityData.mk "2025-06-10" "Available" true]
          "2025-06-10" = some "Available" := by
  have h := empty_reason_normalized_available
    (RawItem.mk "2025-06-10T00:00:00.000Z" "" true 3)
    [AvailabilityData.mk "2025-06-10" "Available" true] "2025-06-10"
    (AvailabilityData.mk "2025-06-10" "Available" true)
  exact ⟨h.1 rfl, (h.2 (by decide) rfl).1, (h.2 (by decide) rfl).2.1,
    (h.2 (by decide) rfl).2.2⟩
